import Mathlib

/-!
Verification development for the overlap-mesh construction core
(`src/OverlapMesh.cpp`): a shallow embedding of `GeneratePath`,
`GenerateOverlapFaces` and `GenerateOverlapMesh`, together with theorems
about the node map, the tracer, the assembler and the output face order.

Node coordinates are only ever inspected by the external geometric kernel
(`MeshUtilities`), so the embedding is generic over the node carrier type
`ν`; the kernel is a structure of functions.  Machine loops with no
structural bound are embedded with an explicit fuel parameter.
-/

namespace OverlapSpec

/-- Edge type enumerator (`Edge::Type` in GridElements: great-circle arc or
line of constant latitude).  Modelled from the spec section 3 since
GridElements.h is not part of src. -/
inductive EdgeType where
  | greatCircleArc
  | constantLatitude
  deriving DecidableEq, Repr, Inhabited

/-- An edge: an ordered pair of node indices plus a type
(per the data model in the spec and the `Edge` class used by
OverlapMesh.cpp). -/
structure Edge where
  n0 : Nat
  n1 : Nat
  type : EdgeType
  deriving DecidableEq, Repr

instance : Inhabited Edge := ⟨⟨0, 0, EdgeType.greatCircleArc⟩⟩

/-- Undirected edge identity.  Modelled from the spec: the edge map and
edge comparison use `(a,b) = (b,a)` node-set identity (spec section 3,
"Undirected edge identity is used for the edge map"). -/
def Edge.undirEq (e f : Edge) : Bool :=
  (e.n0 == f.n0 && e.n1 == f.n1) || (e.n0 == f.n1 && e.n1 == f.n0)

/-- A face: an ordered cyclic sequence of edges. -/
structure Face where
  edges : List Edge
  deriving DecidableEq, Repr

instance : Inhabited Face := ⟨⟨[]⟩⟩

/-- Vertex i of a face is edge i's first node (spec section 3:
"vertex i is edge[i].n0"; `Face::operator[]` in GridElements). -/
def Face.vertex (f : Face) (i : Nat) : Nat :=
  (f.edges.getD i default).n0

/-- Local index of an edge within a face (`Face::GetEdgeIndex`).
Modelled from the spec (section 6 mesh contract): returns the local index
of the edge in the face, under undirected edge identity. -/
def Face.getEdgeIndex (f : Face) (e : Edge) : Nat :=
  f.edges.findIdx (fun g => Edge.undirEq g e)

/-- Closedness of a face as a polygon: the last edge ends where the first
edge starts.  An empty face is vacuously closed. -/
def Face.closed (f : Face) : Bool :=
  match f.edges.head?, f.edges.getLast? with
  | some e0, some e1 => e1.n1 == e0.n0
  | _, _ => true

/-- A mesh: nodes, faces, and the edge map from (undirected) edge to the
pair of face indices sharing it.  The edge map is embedded as an
association list searched with undirected edge identity. -/
structure Mesh (ν : Type) where
  nodes : List ν
  faces : List Face
  edgemap : List (Edge × Nat × Nat)
  deriving DecidableEq, Repr

/-- Edge map lookup (`meshSecond.edgemap.find(e)`). -/
def edgemapFind (m : List (Edge × Nat × Nat)) (e : Edge) : Option (Nat × Nat) :=
  (m.find? (fun p => Edge.undirEq p.1 e)).map (fun p => p.2)

/-- Intersection type enumerator (`IntersectType` in OverlapMesh.cpp). -/
inductive IntersectType where
  | none
  | edge
  | node
  deriving DecidableEq, Repr, Inhabited

/-- A path segment (class `PathSegment` in OverlapMesh.cpp): an edge with
its face of origin on both meshes, the kind of intersection ending it,
the local index of that intersection in the second face, and (for edge
intersections) the second-mesh edge crossed. -/
structure PathSegment where
  n0 : Nat
  n1 : Nat
  type : EdgeType
  ixFirstFace : Nat
  ixSecondFace : Nat
  inttype : IntersectType
  ixIntersect : Nat
  edgeIntersect : Edge
  deriving DecidableEq, Repr

instance : Inhabited PathSegment :=
  ⟨⟨0, 0, EdgeType.greatCircleArc, 0, 0, IntersectType.none, 0, default⟩⟩

/-- The edge underlying a path segment (the C++ `push_back` of a
`PathSegment` into a `vector<Edge>` slices it to its `Edge` base). -/
def PathSegment.toEdge (s : PathSegment) : Edge :=
  ⟨s.n0, s.n1, s.type⟩

/-- Node location enumerator (`Face::NodeLocation`), used by the
`FindFaceStruct` disambiguation interface. -/
inductive NodeLocation where
  | interior
  | onEdge
  | vertex
  deriving DecidableEq, Repr, Inhabited

/-- Result record of `FindFaceFromNode` (struct `FindFaceStruct`). -/
structure FindFaceStruct where
  vecFaceIndices : List Nat
  vecFaceLocations : List Nat
  loc : NodeLocation
  deriving DecidableEq, Repr, Inhabited

/-- The geometric kernel consumed by the overlap core (the external
`MeshUtilities` interface: fuzzy or exact).  All node geometry goes
through these functions; the core never inspects node values itself. -/
structure Kernel (ν : Type) where
  areNodesEqual : ν → ν → Bool
  calcIntersections : ν → ν → EdgeType → ν → ν → EdgeType → Bool × List ν
  findFaceFromNode : Mesh ν → ν → FindFaceStruct
  findFaceNearNodeIx : Mesh ν → Nat → ν → EdgeType → Nat
  findFaceNearNodeFF : Mesh ν → ν → ν → EdgeType → FindFaceStruct → Nat

/-! ## Coincident-node pre-pass and overlap node array
(`GenerateOverlapMesh`, lines 959-993) -/

/-- Modelled from the spec: `BuildCoincidentNodeVector` is declared in
OverlapMesh.h but its definition is not under src.  Per spec section 4.1
it returns, for each second-mesh node j, the index of a coincident
first-mesh node under the kernel's node equality, or the placeholder
`InvalidNode` (embedded as `Option.none`) when none coincides. -/
def buildCoincidentNodeVector {ν : Type} (k : Kernel ν) (mF mS : Mesh ν) :
    List (Option Nat) :=
  mS.nodes.map (fun snode => mF.nodes.findIdx? (fun fnode => k.areNodesEqual fnode snode))

/-- Placeholder resolution (lines 989-993): each `InvalidNode` entry i is
replaced by `ixOverlapSecondNodesBegin + i`. -/
def resolveNodeMap (start : Nat) : List (Option Nat) → Nat → List Nat
  | [], _ => []
  | o :: rest, i => o.getD (start + i) :: resolveNodeMap start rest (i + 1)

/-- The node-array setup phase of `GenerateOverlapMesh` (lines 974-993):
starting from a cleared overlap mesh, all first-mesh nodes are appended,
then all second-mesh nodes are appended (the `continue` on coincident
entries at line 982 comes after the `push_back` at line 981 and therefore
skips nothing), and the placeholder map entries are resolved against
`ixOverlapSecondNodesBegin`, the overlap size after the first loop. -/
def overlapNodeSetup {ν : Type} (mF mS : Mesh ν) (map0 : List (Option Nat)) :
    List ν × List Nat :=
  let nodes := mF.nodes ++ mS.nodes
  let ixOverlapSecondNodesBegin := mF.nodes.length
  (nodes, resolveNodeMap ixOverlapSecondNodesBegin map0 0)

theorem resolveNodeMap_get? (start : Nat) :
    ∀ (l : List (Option Nat)) (i j : Nat),
      (resolveNodeMap start l i).get? j = (l.get? j).map (fun o => o.getD (start + i + j)) := by
  intro l
  induction l with
  | nil => intro i j; simp [resolveNodeMap]
  | cons o rest ih =>
    intro i j
    cases j with
    | zero => simp [resolveNodeMap]
    | succ j2 =>
      simp only [resolveNodeMap, List.get?_cons_succ]
      rw [ih (i + 1) j2]
      have harith : start + (i + 1) + j2 = start + i + (j2 + 1) := by omega
      rw [harith]

/-- C10: after placeholder resolution, a second-mesh node j with no
coincident first-mesh node (placeholder entry) maps to
`|F.nodes| + j`, the overlap node at that index is exactly second node j,
and first-mesh nodes occupy overlap indices `0 .. |F.nodes|-1` unchanged. -/
theorem c10_noncoincident_node_mapping {ν : Type} (mF mS : Mesh ν)
    (map0 : List (Option Nat)) (j : Nat)
    (hj : map0.get? j = some Option.none) :
    (overlapNodeSetup mF mS map0).2.get? j = some (mF.nodes.length + j) ∧
    (overlapNodeSetup mF mS map0).1.get? (mF.nodes.length + j) = mS.nodes.get? j ∧
    (∀ i, i < mF.nodes.length →
      (overlapNodeSetup mF mS map0).1.get? i = mF.nodes.get? i) := by
  refine ⟨?_, ?_, ?_⟩
  · simp only [overlapNodeSetup]
    rw [resolveNodeMap_get?, hj]
    simp
  · simp only [overlapNodeSetup]
    rw [List.get?_append_right (by omega)]
    congr 1
    omega
  · intro i hi
    simp only [overlapNodeSetup]
    rw [List.get?_append hi]

/-- Witness for C10 at a concrete input. -/
theorem c10_witness :
    (overlapNodeSetup (ν := Nat) ⟨[10, 20], [], []⟩ ⟨[20, 30], [], []⟩
        [some 1, Option.none]).2.get? 1 = some 3 ∧
    (overlapNodeSetup (ν := Nat) ⟨[10, 20], [], []⟩ ⟨[20, 30], [], []⟩
        [some 1, Option.none]).1.get? 3 = some 30 := by
  have h := c10_noncoincident_node_mapping (ν := Nat)
    ⟨[10, 20], [], []⟩ ⟨[20, 30], [], []⟩ [some 1, Option.none] 1 (by decide)
  exact ⟨h.1, by simpa using h.2.1⟩

/-- C1 counterexample: with first nodes `[10, 20]` and second nodes
`[20, 30]` under literal node equality, second node 0 coincides with
first node 1, yet the overlap node array after setup is
`[10, 20, 20, 30]`: the coincident point appears twice (the second-node
loop pushes every node; the `continue` at line 982 follows the
`push_back`), refuting "O.nodes contains the point only once, at
index k". -/
theorem c1_duplicate_inserted :
    buildCoincidentNodeVector (ν := Nat)
        ⟨fun a b => a == b, fun _ _ _ _ _ _ => (false, []), fun _ _ => default,
         fun _ _ _ _ => 0, fun _ _ _ _ _ => 0⟩
        ⟨[10, 20], [], []⟩ ⟨[20, 30], [], []⟩ = [some 1, Option.none] ∧
    (overlapNodeSetup (ν := Nat) ⟨[10, 20], [], []⟩ ⟨[20, 30], [], []⟩
        [some 1, Option.none]).1 = [10, 20, 20, 30] ∧
    ¬ ((overlapNodeSetup (ν := Nat) ⟨[10, 20], [], []⟩ ⟨[20, 30], [], []⟩
        [some 1, Option.none]).1.count 20 = 1) := by
  refine ⟨by decide, by decide, by decide⟩

/-- C1 amended: when second node j coincides with first node k
(`BuildCoincidentNodeVector` entry `some k`), the resolved map still
sends j to k, but a duplicate copy of the node is nevertheless appended
to the overlap node array at index `|F.nodes| + j`. -/
theorem c1_amended_map_and_duplicate {ν : Type} (mF mS : Mesh ν)
    (map0 : List (Option Nat)) (j k : Nat)
    (hj : map0.get? j = some (some k)) :
    (overlapNodeSetup mF mS map0).2.get? j = some k ∧
    (overlapNodeSetup mF mS map0).1.get? (mF.nodes.length + j) = mS.nodes.get? j := by
  constructor
  · simp only [overlapNodeSetup]
    rw [resolveNodeMap_get?, hj]
    simp
  · simp only [overlapNodeSetup]
    rw [List.get?_append_right (by omega)]
    congr 1
    omega

/-- Witness for the amended C1. -/
theorem c1_amended_witness :
    (overlapNodeSetup (ν := Nat) ⟨[10, 20], [], []⟩ ⟨[20, 30], [], []⟩
        [some 1, Option.none]).2.get? 0 = some 1 ∧
    (overlapNodeSetup (ν := Nat) ⟨[10, 20], [], []⟩ ⟨[20, 30], [], []⟩
        [some 1, Option.none]).1.get? 2 = some 20 := by
  have h := c1_amended_map_and_duplicate (ν := Nat)
    ⟨[10, 20], [], []⟩ ⟨[20, 30], [], []⟩ [some 1, Option.none] 0 1 (by decide)
  exact ⟨h.1, by simpa using h.2⟩

/-! ## The path tracer (`GeneratePath`, lines 130-626) -/

/-- Per-edge context of the tracer: the kernel, the two meshes, the
(resolved) second node map, the first face being traced, and the current
first edge with its index in the face. -/
structure TraceCtx (ν : Type) where
  k : Kernel ν
  meshFirst : Mesh ν
  meshSecond : Mesh ν
  nodeMap : List Nat
  ixFirstFace : Nat
  i : Nat
  eF : Edge

/-- Mutable state of the tracer inner loop: `ixOverlapNodeCurrent`,
`nodeLastIntersection`, `ixCurrentSecondFace`, the traced path so far and
the overlap node array (which grows at interior edge crossings). -/
structure InnerState (ν : Type) where
  acur : Nat
  lastInt : ν
  scur : Nat
  path : List PathSegment
  onodes : List ν
  deriving Repr

/-- The scan over the edges of the current second face (lines 229-281).
For each edge: a degenerate edge is a fatal error; the kernel computes
the intersections of the first edge with it; intersections equal to the
last intersection point are erased; on a coincident report the
intersections are cleared and the scan continues (the returned flag is the
flag of the last edge examined, as in the C++ single `fCoincidentEdge`
variable); more than one surviving intersection is fatal; exactly one
stops the scan with its local index. -/
def scanEdges {ν : Type} [Inhabited ν] (k : Kernel ν) (snodes : List ν)
    (nA nB : ν) (τ : EdgeType) (lastInt : ν) :
    List Edge → Nat → Bool → Except String (Option (Nat × ν) × Bool)
  | [], _, co => .ok (Option.none, co)
  | g :: rest, j, _ =>
    if g.n0 = g.n1 then .error "Zero Edge detected"
    else
      let r := k.calcIntersections nA nB τ (snodes.getD g.n0 default) (snodes.getD g.n1 default) g.type
      let co := r.1
      let ints := r.2.filter (fun p => !(k.areNodesEqual p lastInt))
      if co then scanEdges k snodes nA nB τ lastInt rest (j + 1) co
      else if 1 < ints.length then .error "Not implemented: Non-convex intersections"
      else
        match ints with
        | [p] => .ok (some (j, p), co)
        | _ => scanEdges k snodes nA nB τ lastInt rest (j + 1) co

/-- The `FindFaceStruct` built for an edge crossing from the edge-map face
pair (lines 419-433 and 595-609). -/
def mkEdgeFindFaceStruct {ν : Type} (mS : Mesh ν) (g : Edge) (fp : Nat × Nat) :
    FindFaceStruct :=
  ⟨[fp.1, fp.2],
   [(mS.faces.getD fp.1 default).getEdgeIndex g, (mS.faces.getD fp.2 default).getEdgeIndex g],
   NodeLocation.onEdge⟩

/-- The next second face computed in the endpoint case (intersection
exactly at the end of the current first edge, lines 337-459): by the
beginpoint of the hit edge, its endpoint, or the edge interior, using the
next first edge as the direction of travel. -/
def caseANextFace {ν : Type} [Inhabited ν] (ctx : TraceCtx ν) (g : Edge) (p : ν)
    (eN : Edge) (fp : Nat × Nat) : Nat :=
  let u0 := ctx.meshSecond.nodes.getD g.n0 default
  let u1 := ctx.meshSecond.nodes.getD g.n1 default
  if ctx.k.areNodesEqual p u0 then
    ctx.k.findFaceNearNodeIx ctx.meshSecond g.n0 (ctx.meshFirst.nodes.getD eN.n1 default) eN.type
  else if ctx.k.areNodesEqual p u1 then
    ctx.k.findFaceNearNodeIx ctx.meshSecond g.n1 (ctx.meshFirst.nodes.getD eN.n1 default) eN.type
  else
    ctx.k.findFaceNearNodeFF ctx.meshSecond (ctx.meshFirst.nodes.getD eN.n0 default)
      (ctx.meshFirst.nodes.getD eN.n1 default) eN.type (mkEdgeFindFaceStruct ctx.meshSecond g fp)

/-- Result of one iteration of the tracer inner loop. -/
inductive StepOut (ν : Type) where
  | err (msg : String)
  | nextEdge (st : InnerState ν)
  | sameEdge (st : InnerState ν)

/-- One iteration of the tracer inner loop (lines 210-624): scan the
current second face; with no surviving intersection emit a `None` segment
and move to the next first edge; a surviving coincident flag is the
(unreachable) "Not implemented" abort; otherwise dispatch on whether the
intersection is the end of the first edge, the beginpoint or endpoint of
the hit second edge, or its interior. -/
def traceStep {ν : Type} [Inhabited ν] (ctx : TraceCtx ν) (st : InnerState ν) :
    StepOut ν :=
  let faceS := ctx.meshSecond.faces.getD st.scur default
  let nA := st.onodes.getD ctx.eF.n0 default
  let nB := st.onodes.getD ctx.eF.n1 default
  match scanEdges ctx.k ctx.meshSecond.nodes nA nB ctx.eF.type st.lastInt faceS.edges 0 false with
  | .error msg => .err msg
  | .ok (Option.none, _) =>
      .nextEdge { st with path := st.path ++
        [⟨st.acur, ctx.eF.n1, ctx.eF.type, ctx.ixFirstFace, st.scur, IntersectType.none, 0, default⟩] }
  | .ok (some (j, p), fCoincidentEdge) =>
    if fCoincidentEdge then .err "Not implemented"
    else
      let g := faceS.edges.getD j default
      let u0 := ctx.meshSecond.nodes.getD g.n0 default
      let u1 := ctx.meshSecond.nodes.getD g.n1 default
      if ctx.k.areNodesEqual p nB then
        let faceF := ctx.meshFirst.faces.getD ctx.ixFirstFace default
        let eN := faceF.edges.getD ((ctx.i + 1) % faceF.edges.length) default
        match edgemapFind ctx.meshSecond.edgemap g with
        | Option.none => .err "Logic error"
        | some fp =>
          let nxt := caseANextFace ctx g p eN fp
          let bifurcation : List PathSegment :=
            if nxt = st.scur then
              [⟨st.acur, ctx.eF.n1, ctx.eF.type, ctx.ixFirstFace, st.scur, IntersectType.none, j, default⟩]
            else if ctx.k.areNodesEqual p u0 then
              [⟨st.acur, ctx.eF.n1, ctx.eF.type, ctx.ixFirstFace, st.scur, IntersectType.node, j, default⟩]
            else if ctx.k.areNodesEqual p u1 then
              [⟨st.acur, ctx.eF.n1, ctx.eF.type, ctx.ixFirstFace, st.scur, IntersectType.node,
                (j + 1) % faceS.edges.length, default⟩]
            else
              [⟨st.acur, ctx.eF.n1, ctx.eF.type, ctx.ixFirstFace, st.scur, IntersectType.edge, j, g⟩]
          .nextEdge { st with
            acur := ctx.eF.n1, lastInt := p, scur := nxt,
            path := st.path ++ bifurcation }
      else if ctx.k.areNodesEqual p u0 then
        let c := ctx.nodeMap.getD g.n0 0
        let st2 : InnerState ν :=
          { acur := c, lastInt := p,
            scur := ctx.k.findFaceNearNodeIx ctx.meshSecond g.n0
              (ctx.meshFirst.nodes.getD ctx.eF.n1 default) ctx.eF.type,
            path := st.path ++
              [⟨st.acur, c, ctx.eF.type, ctx.ixFirstFace, st.scur, IntersectType.node, j, default⟩],
            onodes := st.onodes }
        if c = ctx.eF.n1 then .nextEdge st2 else .sameEdge st2
      else if ctx.k.areNodesEqual p u1 then
        let c := ctx.nodeMap.getD g.n1 0
        let st2 : InnerState ν :=
          { acur := c, lastInt := p,
            scur := ctx.k.findFaceNearNodeIx ctx.meshSecond g.n1
              (ctx.meshFirst.nodes.getD ctx.eF.n1 default) ctx.eF.type,
            path := st.path ++
              [⟨st.acur, c, ctx.eF.type, ctx.ixFirstFace, st.scur, IntersectType.node,
                (j + 1) % faceS.edges.length, default⟩],
            onodes := st.onodes }
        if c = ctx.eF.n1 then .nextEdge st2 else .sameEdge st2
      else
        let ixNew := st.onodes.length
        let onodes2 := st.onodes ++ [p]
        let path2 := st.path ++
          [⟨st.acur, ixNew, ctx.eF.type, ctx.ixFirstFace, st.scur, IntersectType.edge, j, g⟩]
        match edgemapFind ctx.meshSecond.edgemap g with
        | Option.none => .err "Logic error"
        | some fp =>
          .sameEdge
            { acur := ixNew, lastInt := p,
              scur := ctx.k.findFaceNearNodeFF ctx.meshSecond p (onodes2.getD ctx.eF.n1 default)
                ctx.eF.type (mkEdgeFindFaceStruct ctx.meshSecond g fp),
              path := path2, onodes := onodes2 }

/-- Result of the tracer inner loop. -/
inductive InnerOut (ν : Type) where
  | err (msg : String)
  | done (st : InnerState ν)
  | fuelOut (st : InnerState ν)

/-- Whether the inner loop ran out of fuel. -/
def InnerOut.isFuelOut {ν : Type} : InnerOut ν → Bool
  | .fuelOut _ => true
  | _ => false

/-- The tracer inner loop (the `for (;;)` at line 210), with explicit
fuel: the C++ loop has no structural bound and terminates only by the
geometric progress of the intersections. -/
def traceInner {ν : Type} [Inhabited ν] (ctx : TraceCtx ν) :
    Nat → InnerState ν → InnerOut ν
  | 0, st => .fuelOut st
  | fuel + 1, st =>
    match traceStep ctx st with
    | .err m => .err m
    | .nextEdge st2 => .done st2
    | .sameEdge st2 => traceInner ctx fuel st2

/-- Result of tracing one whole first face. -/
inductive TraceOut (ν : Type) where
  | ok (path : List PathSegment) (onodes : List ν)
  | err (msg : String)
  | fuelOut

/-- The tracer outer loop over the edges of the first face (line 189):
degenerate edges are skipped; each real edge resets
`ixOverlapNodeCurrent` to the edge beginpoint and
`nodeLastIntersection` to the beginpoint node, then runs the inner loop. -/
def traceEdges {ν : Type} [Inhabited ν] (k : Kernel ν) (mF mS : Mesh ν)
    (nodeMap : List Nat) (f : Nat) (fuel : Nat) :
    List (Nat × Edge) → Nat → List PathSegment → List ν → TraceOut ν
  | [], _, path, onodes => .ok path onodes
  | (i, e) :: rest, scur, path, onodes =>
    if e.n0 = e.n1 then traceEdges k mF mS nodeMap f fuel rest scur path onodes
    else
      match traceInner ⟨k, mF, mS, nodeMap, f, i, e⟩ fuel
          ⟨e.n0, mF.nodes.getD e.n0 default, scur, path, onodes⟩ with
      | .err m => .err m
      | .fuelOut _ => .fuelOut
      | .done st2 => traceEdges k mF mS nodeMap f fuel rest st2.scur st2.path st2.onodes

/-- `GeneratePath` (lines 130-626): locate the starting second face from
the first vertex (disambiguating along the first edge when the vertex
lies on a boundary), then trace every edge of the first face. -/
def generatePath {ν : Type} [Inhabited ν] (k : Kernel ν) (mF mS : Mesh ν)
    (nodeMap : List Nat) (f : Nat) (onodes0 : List ν) (fuel : Nat) : TraceOut ν :=
  let faceF := mF.faces.getD f default
  let v0 := mF.nodes.getD (faceF.vertex 0) default
  let ffs := k.findFaceFromNode mS v0
  if ffs.vecFaceIndices.length = 0 then .err "No initial face found!"
  else
    let scur0 :=
      if 1 < ffs.vecFaceIndices.length then
        k.findFaceNearNodeFF mS v0 (mF.nodes.getD (faceF.vertex 1) default)
          ((faceF.edges.getD 0 default).type) ffs
      else ffs.vecFaceIndices.getD 0 0
    traceEdges k mF mS nodeMap f fuel faceF.edges.enum scur0 [] onodes0

/-! ### C2: the coincident-edge abort is unreachable -/

/-- Shorthand for the great-circle edge type in concrete scenarios. -/
def gc : EdgeType := EdgeType.greatCircleArc

/-- Kernel for the C2 failing input: the first edge of the first face is
reported coincident with second edge (s0,s1); every other query reports
no intersection. -/
def c2kernel : Kernel Nat where
  areNodesEqual := fun a b => a == b
  calcIntersections := fun nA _ _ g0 g1 _ =>
    if nA == 100 && g0 == 200 && g1 == 201 then (true, []) else (false, [])
  findFaceFromNode := fun _ n =>
    if n == 100 then ⟨[0], [0], NodeLocation.interior⟩ else ⟨[], [], NodeLocation.interior⟩
  findFaceNearNodeIx := fun _ _ _ _ => 0
  findFaceNearNodeFF := fun _ _ _ _ _ => 0

/-- First mesh for the C2 failing input: one two-edge face. -/
def c2meshFirst : Mesh Nat := ⟨[100, 101], [⟨[⟨0, 1, gc⟩, ⟨1, 0, gc⟩]⟩], []⟩

/-- Second mesh for the C2 failing input: one two-edge face. -/
def c2meshSecond : Mesh Nat := ⟨[200, 201], [⟨[⟨0, 1, gc⟩, ⟨1, 0, gc⟩]⟩], []⟩

/-- C2: at the failing input (the kernel reports the first edge of face 0
coincident with a second-mesh edge) the tracer clears the intersections,
continues scanning, finds nothing else, emits a `None` path segment and
completes without any abort: the "Not implemented" coincident-edge error
at line 312 is dead because the empty-intersection exit at line 284 comes
first and the flag of the hit edge is always false at line 312. -/
theorem c2_coincident_edge_does_not_abort :
    generatePath c2kernel c2meshFirst c2meshSecond [2, 3] 0 [100, 101, 200, 201] 8 =
      .ok
        [⟨0, 1, gc, 0, 0, IntersectType.none, 0, default⟩,
         ⟨1, 0, gc, 0, 0, IntersectType.none, 0, default⟩]
        [100, 101, 200, 201] := by
  rfl

/-! ### C7: endpoint crossing with unchanged face is a warning, not an abort -/

/-- C7: when the intersection is exactly the end of the current first
edge and the kernel reports the next second face equal to the current one
(the "Face does not change across Edge" warning), the tracer emits a path
segment with `inttype = None` tagged with the unchanged second face, and
continues to the next first edge without error. -/
theorem c7_face_unchanged_none_segment {ν : Type} [Inhabited ν]
    (ctx : TraceCtx ν) (st : InnerState ν) (j : Nat) (p : ν) (fp : Nat × Nat)
    (hscan : scanEdges ctx.k ctx.meshSecond.nodes (st.onodes.getD ctx.eF.n0 default)
        (st.onodes.getD ctx.eF.n1 default) ctx.eF.type st.lastInt
        (ctx.meshSecond.faces.getD st.scur default).edges 0 false = .ok (some (j, p), false))
    (hB : ctx.k.areNodesEqual p (st.onodes.getD ctx.eF.n1 default) = true)
    (hmap : edgemapFind ctx.meshSecond.edgemap
        ((ctx.meshSecond.faces.getD st.scur default).edges.getD j default) = some fp)
    (hsame : caseANextFace ctx ((ctx.meshSecond.faces.getD st.scur default).edges.getD j default) p
        ((ctx.meshFirst.faces.getD ctx.ixFirstFace default).edges.getD
          ((ctx.i + 1) % (ctx.meshFirst.faces.getD ctx.ixFirstFace default).edges.length) default)
        fp = st.scur) :
    traceStep ctx st = .nextEdge
      { st with
        acur := ctx.eF.n1, lastInt := p, scur := st.scur,
        path := st.path ++
          [⟨st.acur, ctx.eF.n1, ctx.eF.type, ctx.ixFirstFace, st.scur,
            IntersectType.none, j, default⟩] } := by
  simp only [traceStep]
  rw [hscan]
  simp only [Bool.false_eq_true, if_false, hB, if_true, hmap, hsame, if_pos rfl]

/-- Kernel for the C7 witness: the intersection point is declared equal
both to the end of the first edge and to the beginpoint of the hit second
edge, and `FindFaceNearNode` returns the current face. -/
def c7kernel : Kernel Nat where
  areNodesEqual := fun x y => x == y || (x == 101 && y == 200) || (x == 200 && y == 101)
  calcIntersections := fun nA _ _ g0 g1 _ =>
    if nA == 100 && g0 == 200 && g1 == 201 then (false, [101]) else (false, [])
  findFaceFromNode := fun _ _ => ⟨[0], [0], NodeLocation.interior⟩
  findFaceNearNodeIx := fun _ _ _ _ => 0
  findFaceNearNodeFF := fun _ _ _ _ _ => 0

/-- Tracer context for the C7 witness. -/
def c7ctx : TraceCtx Nat :=
  ⟨c7kernel, ⟨[100, 101], [⟨[⟨0, 1, gc⟩, ⟨1, 0, gc⟩]⟩], []⟩,
   ⟨[200, 201, 202], [⟨[⟨0, 1, gc⟩, ⟨1, 2, gc⟩, ⟨2, 0, gc⟩]⟩, ⟨[]⟩], [(⟨0, 1, gc⟩, 0, 1)]⟩,
   [3, 4, 5], 0, 0, ⟨0, 1, gc⟩⟩

/-- Tracer state for the C7 witness. -/
def c7st : InnerState Nat := ⟨0, 100, 0, [], [100, 101, 200, 201, 202]⟩

/-- Witness for C7 at a concrete input. -/
theorem c7_witness :
    traceStep c7ctx c7st = .nextEdge
      { c7st with
        acur := 1, lastInt := 101,
        path := [⟨0, 1, gc, 0, 0, IntersectType.none, 0, default⟩] } :=
  c7_face_unchanged_none_segment c7ctx c7st 0 101 (0, 1) rfl rfl rfl rfl

/-! ### C8: termination of the tracer inner loop -/

/-- C8: the tracer inner loop terminates whenever the kernel makes
progress: if every continuing iteration (an intersection strictly inside
the current edge trajectory) strictly decreases a measure, then the loop
finishes within measure-many iterations; the spec instantiates the
measure with the number of second edges the first edge can still cross
before reaching its endpoint. -/
theorem c8_inner_loop_terminates {ν : Type} [Inhabited ν] (ctx : TraceCtx ν)
    (μ : InnerState ν → Nat)
    (hprog : ∀ st st2, traceStep ctx st = .sameEdge st2 → μ st2 < μ st) :
    ∀ (fuel : Nat) (st : InnerState ν), μ st < fuel →
      (traceInner ctx fuel st).isFuelOut = false := by
  intro fuel
  induction fuel with
  | zero => intro st h; omega
  | succ n ih =>
    intro st h
    simp only [traceInner]
    cases hstep : traceStep ctx st with
    | err m => rfl
    | nextEdge st2 => rfl
    | sameEdge st2 =>
      exact ih st2 (lt_of_lt_of_le (hprog st st2 hstep) (Nat.lt_succ_iff.mp h))

/-- Kernel for the C8 witness: no intersections at all. -/
def c8kernel : Kernel Nat where
  areNodesEqual := fun a b => a == b
  calcIntersections := fun _ _ _ _ _ _ => (false, [])
  findFaceFromNode := fun _ _ => ⟨[0], [0], NodeLocation.interior⟩
  findFaceNearNodeIx := fun _ _ _ _ => 0
  findFaceNearNodeFF := fun _ _ _ _ _ => 0

/-- Tracer context for the C8 witness. -/
def c8ctx : TraceCtx Nat :=
  ⟨c8kernel, c2meshFirst, c2meshSecond, [2, 3], 0, 0, ⟨0, 1, gc⟩⟩

/-- With the C8 witness kernel the scan never finds an intersection:
it returns a fatal error (on a degenerate edge) or no intersection. -/
theorem c8kernel_scan_never_finds (snodes : List Nat) (nA nB : Nat) (τ : EdgeType)
    (lastInt : Nat) :
    ∀ (es : List Edge) (j : Nat) (co : Bool),
      (∃ msg, scanEdges c8kernel snodes nA nB τ lastInt es j co = .error msg) ∨
      (∃ b, scanEdges c8kernel snodes nA nB τ lastInt es j co = .ok (Option.none, b)) := by
  intro es
  induction es with
  | nil => intro j co; exact Or.inr ⟨co, rfl⟩
  | cons g rest ih =>
    intro j co
    by_cases hdeg : g.n0 = g.n1
    · exact Or.inl ⟨"Zero Edge detected", by simp [scanEdges, hdeg]⟩
    · have : scanEdges c8kernel snodes nA nB τ lastInt (g :: rest) j co =
        scanEdges c8kernel snodes nA nB τ lastInt rest (j + 1) false := by
        simp [scanEdges, hdeg, c8kernel]
      rw [this]
      exact ih (j + 1) false

/-- With the C8 witness kernel no tracer step continues on the same edge. -/
theorem c8kernel_no_continue (st st2 : InnerState Nat) :
    ¬ (traceStep c8ctx st = .sameEdge st2) := by
  intro h
  simp only [traceStep] at h
  simp only [show c8ctx.k = c8kernel from rfl] at h
  rcases c8kernel_scan_never_finds c8ctx.meshSecond.nodes
      (st.onodes.getD c8ctx.eF.n0 default) (st.onodes.getD c8ctx.eF.n1 default)
      c8ctx.eF.type st.lastInt
      (c8ctx.meshSecond.faces.getD st.scur default).edges 0 false with
    hcase | hcase
  · obtain ⟨msg, hmsg⟩ := hcase
    rw [hmsg] at h
    exact StepOut.noConfusion h
  · obtain ⟨b, hb⟩ := hcase
    rw [hb] at h
    exact StepOut.noConfusion h

/-- Witness for C8 at a concrete input. -/
theorem c8_witness :
    (traceInner c8ctx 1 ⟨0, 100, 0, [], [100, 101, 200, 201]⟩).isFuelOut = false :=
  c8_inner_loop_terminates c8ctx (fun _ => 0)
    (fun st st2 h => absurd h (c8kernel_no_continue st st2)) 1
    ⟨0, 100, 0, [], [100, 101, 200, 201]⟩ (by decide)

/-! ## The face assembler (`GenerateOverlapFaces`, lines 630-949)

The C++ `std::set<int>` collections (`setSecondFacesAdded`,
`setSecondFacesToAdd`) are embedded as ascending duplicate-free lists;
`std::set` iterators are embedded by the value they point at, so that
iterator increment is the least element greater than the current value
and `begin()` is the least element, which matches `std::set` iterator
stability under insertion and the reassignment to `begin()` after
erasure of the current element. -/

/-- Ordered insertion into an ascending duplicate-free list
(`std::set::insert`). -/
def insertSorted (x : Nat) : List Nat → List Nat
  | [] => [x]
  | y :: ys => if x < y then x :: y :: ys else if x = y then y :: ys else y :: insertSorted x ys

/-- Result of Phase A (the run along the first-mesh boundary,
lines 680-702). -/
inductive PhaseAOut where
  | toB (P : List Edge) (j : Nat) (used : List Bool)
  | closed (P : List Edge) (used : List Bool)
  | err (msg : String)
  | fuelOut
  deriving Repr

/-- Phase A of the assembler (lines 680-702): consume consecutive path
segments, pushing each onto the face in progress and marking it used
(reuse is fatal); a segment with a non-`None` intersection type branches
into the second-mesh interior; a segment ending at the origin closes the
face.  Indexing past the end of the traced path (the C++ loop increments
`j` without bound) is embedded as an error. -/
def phaseA (path : List PathSegment) (origin : Nat) :
    Nat → Nat → List Edge → List Bool → PhaseAOut
  | 0, _, _, _ => .fuelOut
  | fuel + 1, j, P, used =>
    match path.get? j with
    | Option.none => .err "segment index out of range"
    | some seg =>
      let P2 := P ++ [seg.toEdge]
      if used.getD j false then .err "Trying to reuse traced path edge"
      else
        let used2 := used.set j true
        if seg.inttype ≠ IntersectType.none then .toB P2 j used2
        else if seg.n1 = origin then .closed P2 used2
        else phaseA path origin fuel (j + 1) P2 used2

/-- The scan for an exit segment (lines 739-778): walk the traced path
cyclically from j+1 back to j, skipping segments ending at the current
overlap node, and stop at the first segment that exits through the
current second edge, either at one of its endpoints (`Node`) or across
it (`Edge`); `InvalidNode` is embedded as `Option.none`. -/
def exitScan (path : List PathSegment) (nodeMap : List Nat) (g : Edge) (curNode : Nat) :
    Nat → Nat → Option (Nat × Nat)
  | _, 0 => Option.none
  | k, cd + 1 =>
    let seg := path.getD k default
    if curNode = seg.n1 then exitScan path nodeMap g curNode ((k + 1) % path.length) cd
    else if seg.inttype = IntersectType.node &&
        (seg.n1 == nodeMap.getD g.n0 0 || seg.n1 == nodeMap.getD g.n1 0) then
      some (k, seg.n1)
    else if seg.inttype = IntersectType.edge && Edge.undirEq g seg.edgeIntersect then
      some (k, seg.n1)
    else exitScan path nodeMap g curNode ((k + 1) % path.length) cd

/-- Result of Phase B (the run along the interior of the current second
face, lines 709-846).  Every constructor carries the final value of the
`nEdgesCompleted` counter. -/
inductive PhaseBOut where
  | toA (P : List Edge) (j : Nat) (toAdd : List Nat) (n : Nat)
  | closed (P : List Edge) (toAdd : List Nat) (n : Nat)
  | fail (toAdd : List Nat) (n : Nat)
  | err (msg : String) (n : Nat)
  | fuelOut (n : Nat)
  deriving Repr

/-- Final counter value of a Phase B result. -/
def PhaseBOut.count : PhaseBOut → Nat
  | .toA _ _ _ n => n
  | .closed _ _ n => n
  | .fail _ n => n
  | .err _ n => n
  | .fuelOut n => n

/-- Phase B of the assembler (lines 709-846): walk the edges of the
current second face.  The guard aborts with failure once the counter
exceeds the edge count of the face; a degenerate edge is skipped; the
neighbouring face across the current edge is recorded as an interior
candidate; if an exit segment is found whose successor segment lies on
the current face, the interior arc to the exit node is pushed and control
returns to Phase A (or the face closes at the origin); otherwise the arc
to the mapped endpoint of the current edge is pushed and the walk
advances.  The assembler never inspects node values, so it only needs
the second-mesh faces and edge map. -/
def phaseB (edgemap : List (Edge × Nat × Nat)) (nodeMap : List Nat)
    (path : List PathSegment) (origin scur : Nat) (faceS : Face) (j : Nat) :
    Nat → Nat → Nat → Nat → List Edge → List Nat → PhaseBOut
  | 0, _, _, n, _, _ => .fuelOut n
  | fuel + 1, eIdx, curNode, n, P, toAdd =>
    if faceS.edges.length < n then .fail toAdd n
    else
      let g := faceS.edges.getD eIdx default
      let n2 := n + 1
      if g.n0 = g.n1 then
        phaseB edgemap nodeMap path origin scur faceS j fuel
          ((eIdx + 1) % faceS.edges.length) (nodeMap.getD g.n1 0) n2 P toAdd
      else
        let exitQ := exitScan path nodeMap g curNode ((j + 1) % path.length) (path.length - 1)
        match edgemapFind edgemap g with
        | Option.none => .err "Logic error" n2
        | some fp =>
          match (if fp.1 = scur then some fp.2
                 else if fp.2 = scur then some fp.1 else Option.none) with
          | Option.none => .err "Logic error" n2
          | some other =>
            let toAdd2 := insertSorted other toAdd
            let tail :=
              let cn2 := nodeMap.getD g.n1 0
              let P2 := P ++ [⟨curNode, cn2, g.type⟩]
              if cn2 = origin then PhaseBOut.closed P2 toAdd2 n2
              else
                phaseB edgemap nodeMap path origin scur faceS j fuel
                  ((eIdx + 1) % faceS.edges.length) cn2 n2 P2 toAdd2
            match exitQ with
            | some (k, xnode) =>
              let jN := (k + 1) % path.length
              if (path.getD jN default).ixSecondFace = scur then
                let P2 := P ++ [⟨curNode, xnode, g.type⟩]
                if xnode = origin then .closed P2 toAdd2 n2 else .toA P2 jN toAdd2 n2
              else tail
            | Option.none => tail

/-- Result of one outer trip (Phase A alternating with Phase B) of the
assembler. -/
inductive TripOut where
  | pushed (face : List Edge) (used : List Bool) (toAdd : List Nat)
  | fail (used : List Bool) (toAdd : List Nat)
  | err (msg : String)
  | fuelOut
  deriving Repr

/-- One trip of the assembler outer search (the `for (;;)` at line 676):
Phase A along the first-mesh boundary, then Phase B along the interior of
the (fixed) starting second face, repeating until the face closes, Phase
B fails, or an exception occurs.  Phase A is run with fuel
`path.length + 1`, which always suffices because its index only
increases and indexing off the end exits; Phase B is run with fuel
`|faceS.edges| + 2`, which always suffices because its guard fires once
the counter exceeds the edge count. -/
def tripLoop (edgemap : List (Edge × Nat × Nat)) (nodeMap : List Nat)
    (path : List PathSegment) (origin scur : Nat) (faceS : Face) :
    Nat → Nat → List Edge → List Bool → List Nat → TripOut
  | 0, _, _, _, _ => .fuelOut
  | fuel + 1, j, P, used, toAdd =>
    match phaseA path origin (path.length + 1) j P used with
    | .err m => .err m
    | .fuelOut => .fuelOut
    | .closed P2 used2 => .pushed P2 used2 toAdd
    | .toB P2 j2 used2 =>
      let segB := path.getD j2 default
      match phaseB edgemap nodeMap path origin scur faceS j2
          (faceS.edges.length + 2) segB.ixIntersect segB.n1 0 P2 toAdd with
      | .err m _ => .err m
      | .fuelOut _ => .fuelOut
      | .fail toAdd2 _ => .fail used2 toAdd2
      | .closed P3 toAdd2 _ => .pushed P3 used2 toAdd2
      | .toA P3 jN toAdd2 _ => tripLoop edgemap nodeMap path origin scur faceS fuel jN P3 used2 toAdd2

/-- Result of the assembler outer loop over starting segments. -/
inductive OuterOut where
  | ok (faces : List Face) (used : List Bool) (toAdd : List Nat)
  | fail (faces : List Face) (toAdd : List Nat)
  | err (msg : String)
  | fuelOut
  deriving Repr

/-- The assembler outer loop (lines 655-867): pick the lowest-index
unused path segment as the start of a new overlap face and run a trip;
a pushed face is appended; after a push the search index resets to 0 and
the loop increment moves it to 1, unless every segment is used, in which
case the loop ends.  A Phase B failure aborts the whole assembly with
`false` (the faces pushed so far stay in the overlap mesh). -/
def outerLoop (edgemap : List (Edge × Nat × Nat)) (nodeMap : List Nat)
    (path : List PathSegment) (sfaces : List Face) :
    Nat → Nat → List Face → List Bool → List Nat → OuterOut
  | 0, _, _, _, _ => .fuelOut
  | fuel + 1, j, faces, used, toAdd =>
    if path.length ≤ j then .ok faces used toAdd
    else if used.getD j false then outerLoop edgemap nodeMap path sfaces fuel (j + 1) faces used toAdd
    else
      let origin := (path.getD j default).n0
      let scur := (path.getD j default).ixSecondFace
      let faceS := sfaces.getD scur default
      match tripLoop edgemap nodeMap path origin scur faceS fuel j [] used toAdd with
      | .err m => .err m
      | .fuelOut => .fuelOut
      | .fail _ toAdd2 => .fail faces toAdd2
      | .pushed P used2 toAdd2 =>
        let faces2 := faces ++ [⟨P⟩]
        if used2.all (fun b => b) then .ok faces2 used2 toAdd2
        else outerLoop edgemap nodeMap path sfaces fuel 1 faces2 used2 toAdd2

/-- Mapping a second-mesh face into overlap node indices through the
node map, copying edge types (lines 890-899). -/
def mapFace (nodeMap : List Nat) (f : Face) : Face :=
  ⟨f.edges.map (fun e => ⟨nodeMap.getD e.n0 0, nodeMap.getD e.n1 0, e.type⟩)⟩

/-- The neighbour pass of one flood-fill step (lines 908-938): for each
non-degenerate edge of the face being added, look it up in the edge map
(absence and inconsistency are fatal) and enqueue the other face if it
has not been added yet, recording whether anything new was enqueued. -/
def floodNeighbors (edgemap : List (Edge × Nat × Nat)) (cur : Nat) (added : List Nat) :
    List Edge → List Nat → Bool → Except String (List Nat × Bool)
  | [], toAdd, fm => .ok (toAdd, fm)
  | e :: rest, toAdd, fm =>
    if e.n0 = e.n1 then floodNeighbors edgemap cur added rest toAdd fm
    else
      match edgemapFind edgemap e with
      | Option.none => .error "Edge not found in EdgeMap"
      | some fp =>
        match (if fp.1 = cur then some fp.2
               else if fp.2 = cur then some fp.1 else Option.none) with
        | Option.none => .error "EdgeMap consistency error"
        | some other =>
          if added.contains other then floodNeighbors edgemap cur added rest toAdd fm
          else floodNeighbors edgemap cur added rest (insertSorted other toAdd) true

/-- Result of the flood-fill of pure-interior second faces. -/
inductive FloodOut where
  | ok (faces : List Face)
  | err (msg : String)
  | fuelOut
  deriving Repr

/-- The flood-fill loop (lines 883-946): while the iterator position is
valid, emit the current face mapped through the node map, mark it added,
enqueue its not-yet-added neighbours; if anything new was enqueued the
current element is erased and the iterator resets to the least element,
otherwise it advances to the least element greater than the current one
(the current element is left in the worklist). -/
def floodLoop (edgemap : List (Edge × Nat × Nat)) (nodeMap : List Nat) (sfaces : List Face) :
    Nat → Option Nat → List Nat → List Nat → List Face → FloodOut
  | 0, _, _, _, _ => .fuelOut
  | _ + 1, Option.none, _, _, acc => .ok acc
  | fuel + 1, some pos, toAdd, added, acc =>
    let faceS := sfaces.getD pos default
    let acc2 := acc ++ [mapFace nodeMap faceS]
    let added2 := insertSorted pos added
    match floodNeighbors edgemap pos added2 faceS.edges toAdd false with
    | .error m => .err m
    | .ok (toAdd2, fMore) =>
      if fMore then
        let toAdd3 := toAdd2.filter (fun x => x != pos)
        floodLoop edgemap nodeMap sfaces fuel toAdd3.head? toAdd3 added2 acc2
      else
        floodLoop edgemap nodeMap sfaces fuel (toAdd2.find? (fun x => pos < x)) toAdd2 added2 acc2

/-- Result of `GenerateOverlapFaces`: success carries the assembled faces
(pushed during the outer loop) and the flood-filled faces (pushed
afterwards), in push order; failure carries the faces pushed before the
infinite-loop guard fired. -/
inductive AsmOut where
  | ok (asmFaces floodFaces : List Face)
  | fail (asmFaces : List Face)
  | err (msg : String)
  | fuelOut
  deriving Repr

/-- `GenerateOverlapFaces` (lines 630-949): record the second faces
touched by the traced path, run the outer assembly loop, then remove the
touched faces from the interior candidates and flood-fill the rest. -/
def generateOverlapFaces (sfaces : List Face) (edgemap : List (Edge × Nat × Nat))
    (nodeMap : List Nat) (path : List PathSegment) (fuel : Nat) : AsmOut :=
  let added0 := path.foldl (fun s seg => insertSorted seg.ixSecondFace s) []
  let used0 := List.replicate path.length false
  match outerLoop edgemap nodeMap path sfaces fuel 0 [] used0 [] with
  | .err m => .err m
  | .fuelOut => .fuelOut
  | .fail faces _ => .fail faces
  | .ok faces _ toAdd =>
    let toAdd2 := toAdd.filter (fun x => !(added0.contains x))
    match floodLoop edgemap nodeMap sfaces fuel toAdd2.head? toAdd2 added0 [] with
    | .err m => .err m
    | .fuelOut => .fuelOut
    | .ok ff => .ok faces ff

/-! ## The top level (`GenerateOverlapMesh`, lines 953-1027) -/

/-- Result of the whole overlap-mesh generation. -/
inductive RunOut (ν : Type) where
  | ok (m : Mesh ν)
  | err (msg : String)
  | fuelOut
  deriving DecidableEq

/-- The per-face loop of `GenerateOverlapMesh` (lines 995-1026): for each
first face in input order, trace the path and assemble; an assembly
failure is converted to the fatal "OverlapMesh generation failed".  The
assembled and flood-filled faces of each first face are appended before
the next first face is processed. -/
def runFaces {ν : Type} [Inhabited ν] (kF : Kernel ν) (mF mS : Mesh ν)
    (nodeMap : List Nat) (fuel : Nat) :
    List Nat → List ν → List Face → RunOut ν
  | [], onodes, faces => .ok ⟨onodes, faces, []⟩
  | f :: rest, onodes, faces =>
    match generatePath kF mF mS nodeMap f onodes fuel with
    | .err m => .err m
    | .fuelOut => .fuelOut
    | .ok path onodes2 =>
      match generateOverlapFaces mS.faces mS.edgemap nodeMap path fuel with
      | .err m => .err m
      | .fuelOut => .fuelOut
      | .fail _ => .err "OverlapMesh generation failed"
      | .ok asmF floodF => runFaces kF mF mS nodeMap fuel rest onodes2 (faces ++ asmF ++ floodF)

/-- `GenerateOverlapMesh` (lines 953-1027): clear the overlap mesh,
build the coincident node vector, append all first nodes then all second
nodes, resolve the placeholder map entries, and process every first face
with `GeneratePath` instantiated on the fuzzy kernel (line 1005
hard-codes `MeshUtilitiesFuzzy`; neither the exact kernel nor the
`USE_EXACT_ARITHMETIC` configuration define is consulted). -/
def generateOverlapMesh {ν : Type} [Inhabited ν] (kFuzzy kExact : Kernel ν)
    (useExactArithmetic : Bool) (mF mS : Mesh ν) (fuel : Nat) : RunOut ν :=
  let map0 := buildCoincidentNodeVector kFuzzy mF mS
  let setup := overlapNodeSetup mF mS map0
  runFaces kFuzzy mF mS setup.2 fuel (List.range mF.faces.length) setup.1 []

/-- Follows the words of the spec (section 5): the reference face order
is "F-faces in input order, faces from each f in the order produced by
the assembler, then the flood-filled pure-interior faces at the very
end".  This second definition exists only for comparison with the
embedding of the code. -/
def runFacesSpecOrder {ν : Type} [Inhabited ν] (kF : Kernel ν) (mF mS : Mesh ν)
    (nodeMap : List Nat) (fuel : Nat) :
    List Nat → List ν → List Face → List Face → RunOut ν
  | [], onodes, faces, flood => .ok ⟨onodes, faces ++ flood, []⟩
  | f :: rest, onodes, faces, flood =>
    match generatePath kF mF mS nodeMap f onodes fuel with
    | .err m => .err m
    | .fuelOut => .fuelOut
    | .ok path onodes2 =>
      match generateOverlapFaces mS.faces mS.edgemap nodeMap path fuel with
      | .err m => .err m
      | .fuelOut => .fuelOut
      | .fail _ => .err "OverlapMesh generation failed"
      | .ok asmF floodF =>
        runFacesSpecOrder kF mF mS nodeMap fuel rest onodes2 (faces ++ asmF) (flood ++ floodF)

/-- Follows the words of the spec: `generateOverlapMesh` with the
reference flood-at-the-very-end face order. -/
def generateOverlapMeshSpecOrder {ν : Type} [Inhabited ν] (kFuzzy : Kernel ν)
    (mF mS : Mesh ν) (fuel : Nat) : RunOut ν :=
  let map0 := buildCoincidentNodeVector kFuzzy mF mS
  let setup := overlapNodeSetup mF mS map0
  runFacesSpecOrder kFuzzy mF mS setup.2 fuel (List.range mF.faces.length) setup.1 [] []

/-! ## A concrete two-face scenario exercising tracing, assembly and
flood-fill

First mesh: two two-edge faces (nodes 100-103).  Second mesh: five faces
(nodes 200-206); face 0 and face 1 are crossed by first face 0, faces
2, 3, 4 are interior.  The kernel is a finite table answering exactly the
queries the run makes. -/

/-- First mesh of the scenario. -/
def bigMeshFirst : Mesh Nat :=
  ⟨[100, 101, 102, 103],
   [⟨[⟨0, 1, gc⟩, ⟨1, 0, gc⟩]⟩, ⟨[⟨2, 3, gc⟩, ⟨3, 2, gc⟩]⟩], []⟩

/-- Second mesh of the scenario. -/
def bigMeshSecond : Mesh Nat :=
  ⟨[200, 201, 202, 203, 204, 205, 206],
   [⟨[⟨0, 1, gc⟩, ⟨1, 2, gc⟩, ⟨2, 0, gc⟩]⟩,
    ⟨[⟨1, 0, gc⟩, ⟨0, 2, gc⟩, ⟨2, 3, gc⟩, ⟨3, 4, gc⟩, ⟨4, 1, gc⟩]⟩,
    ⟨[⟨2, 1, gc⟩, ⟨1, 4, gc⟩, ⟨4, 2, gc⟩]⟩,
    ⟨[⟨3, 4, gc⟩, ⟨4, 5, gc⟩, ⟨5, 3, gc⟩]⟩,
    ⟨[⟨4, 5, gc⟩, ⟨5, 6, gc⟩, ⟨6, 4, gc⟩]⟩],
   [(⟨0, 1, gc⟩, 0, 1), (⟨1, 2, gc⟩, 0, 2), (⟨2, 0, gc⟩, 0, 1),
    (⟨2, 3, gc⟩, 1, 2), (⟨3, 4, gc⟩, 1, 3), (⟨4, 1, gc⟩, 1, 2),
    (⟨4, 2, gc⟩, 1, 2), (⟨4, 5, gc⟩, 3, 4), (⟨5, 3, gc⟩, 3, 4),
    (⟨5, 6, gc⟩, 3, 4), (⟨6, 4, gc⟩, 3, 4)]⟩

/-- Table kernel of the scenario: first edge (100,101) crosses second
edge (200,201) at 300; first edge (101,100) crosses second edge
(200,202) at 301. -/
def bigKernel : Kernel Nat where
  areNodesEqual := fun a b => a == b
  calcIntersections := fun nA nB _ g0 g1 _ =>
    if nA == 100 && nB == 101 && g0 == 200 && g1 == 201 then (false, [300])
    else if nA == 100 && nB == 101 && g0 == 201 && g1 == 200 then (false, [300])
    else if nA == 101 && nB == 100 && g0 == 200 && g1 == 202 then (false, [301])
    else if nA == 101 && nB == 100 && g0 == 202 && g1 == 200 then (false, [301])
    else (false, [])
  findFaceFromNode := fun _ n =>
    if n == 100 || n == 102 then ⟨[0], [0], NodeLocation.interior⟩
    else ⟨[], [], NodeLocation.interior⟩
  findFaceNearNodeIx := fun _ _ _ _ => 0
  findFaceNearNodeFF := fun _ a _ _ _ => if a == 300 then 1 else 0

/-- The traced path produced by the scenario for first face 0 (equal to
`generatePath bigKernel ... 0`): out of second face 0 through (s0,s1) at
new node 11, across face 1, back through (s0,s2) at new node 12. -/
def bigPath0 : List PathSegment :=
  [⟨0, 11, gc, 0, 0, IntersectType.edge, 0, ⟨0, 1, gc⟩⟩,
   ⟨11, 1, gc, 0, 1, IntersectType.none, 0, default⟩,
   ⟨1, 12, gc, 0, 1, IntersectType.edge, 1, ⟨0, 2, gc⟩⟩,
   ⟨12, 0, gc, 0, 0, IntersectType.none, 0, default⟩]

/-- Face list of a run result (empty on error). -/
def RunOut.faces {ν : Type} : RunOut ν → List Face
  | .ok m => m.faces
  | _ => []

/-- Flood-filled face list of an assembly result (empty otherwise). -/
def AsmOut.floodList : AsmOut → List Face
  | .ok _ ff => ff
  | _ => []

/-! ### C9: the kernel choice is hard-coded to fuzzy -/

/-- C9: `GenerateOverlapMesh` instantiates `GeneratePath` with
`MeshUtilitiesFuzzy` unconditionally: the result does not depend on the
exact kernel nor on the `USE_EXACT_ARITHMETIC` configuration flag. -/
theorem c9_fuzzy_kernel_always {ν : Type} [Inhabited ν] (kFuzzy kExact kExact2 : Kernel ν)
    (flag flag2 : Bool) (mF mS : Mesh ν) (fuel : Nat) :
    generateOverlapMesh kFuzzy kExact flag mF mS fuel =
      generateOverlapMesh kFuzzy kExact2 flag2 mF mS fuel := rfl

/-! ### C3: the Phase B infinite-loop guard is off by one -/

/-- C3 counterexample: a second face with two degenerate edges makes
Phase B perform three body iterations (final counter value 3) before the
guard fires, exceeding the two edges of the face, refuting "at most
|cur.edges| iterations are performed"; the loop still returns failure. -/
theorem c3_iterations_exceed_edge_count :
    phaseB [] [7, 8] [⟨5, 6, gc, 0, 0, IntersectType.node, 0, default⟩] 5 0
        ⟨[⟨0, 0, gc⟩, ⟨1, 1, gc⟩]⟩ 0 10 0 6 0 [⟨5, 6, gc⟩] [] = .fail [] 3 ∧
    ¬ ((phaseB [] [7, 8] [⟨5, 6, gc, 0, 0, IntersectType.node, 0, default⟩] 5 0
        ⟨[⟨0, 0, gc⟩, ⟨1, 1, gc⟩]⟩ 0 10 0 6 0 [⟨5, 6, gc⟩] []).count ≤
      (Face.edges ⟨[⟨0, 0, gc⟩, ⟨1, 1, gc⟩]⟩).length) := by
  exact ⟨rfl, by decide⟩

/-- C3 amended: Phase B performs at most `|cur.edges| + 1` body
iterations (its counter never exceeds `|cur.edges| + 1`), and as soon as
more than `|cur.edges|` iterations have elapsed without closing the face
the guard check returns failure. -/
theorem c3_amended_guard (edgemap : List (Edge × Nat × Nat)) (nodeMap : List Nat)
    (path : List PathSegment) (origin scur : Nat) (faceS : Face) (j : Nat) :
    ∀ (fuel eIdx curNode n : Nat) (P : List Edge) (toAdd : List Nat),
      (n ≤ faceS.edges.length + 1 →
        (phaseB edgemap nodeMap path origin scur faceS j fuel eIdx curNode n P toAdd).count ≤
          faceS.edges.length + 1) ∧
      (faceS.edges.length < n →
        phaseB edgemap nodeMap path origin scur faceS j (fuel + 1) eIdx curNode n P toAdd =
          .fail toAdd n) := by
  intro fuel
  induction fuel with
  | zero =>
    intro eIdx curNode n P toAdd
    refine ⟨fun hn => hn, fun hn => ?_⟩
    simp only [phaseB, if_pos hn]
  | succ fuel2 ih =>
    intro eIdx curNode n P toAdd
    constructor
    · intro hn
      simp only [phaseB]
      split
      · exact hn
      · have hn2 : n + 1 ≤ faceS.edges.length + 1 := by omega
        repeat' split
        all_goals
          first
          | exact hn2
          | exact (ih _ _ _ _ _).1 hn2
    · intro hn
      simp only [phaseB, if_pos hn]

/-! ### C5 counterexample: flood-filled faces are not all at the end -/

/-- C5 counterexample: in the scenario the code appends the flood-filled
pure-interior faces of first face 0 before the assembled face of first
face 1, so the output face list differs from the reference order that
puts all flood-filled faces at the very end of the run. -/
theorem c5_flood_not_at_end :
    ¬ ((generateOverlapMesh bigKernel bigKernel false bigMeshFirst bigMeshSecond 30).faces =
       (generateOverlapMeshSpecOrder bigKernel bigMeshFirst bigMeshSecond 30).faces) := by
  decide

/-! ### C6 counterexample: a flood-filled face can be emitted twice -/

/-- C6 counterexample: assembling the scenario path of first face 0
flood-fills second face 2 twice (it is emitted, not erased from the
worklist because it enqueued nothing new, and re-visited after face 3
enqueues face 4 and the iterator resets to the least element), refuting
"each pure-interior S-face that is flood-filled is emitted as an overlap
face at most once". -/
theorem c6_flood_duplicate :
    (generateOverlapFaces bigMeshSecond.faces bigMeshSecond.edgemap
        [4, 5, 6, 7, 8, 9, 10] bigPath0 30).floodList =
      [⟨[⟨6, 5, gc⟩, ⟨5, 8, gc⟩, ⟨8, 6, gc⟩]⟩, ⟨[⟨7, 8, gc⟩, ⟨8, 9, gc⟩, ⟨9, 7, gc⟩]⟩,
       ⟨[⟨6, 5, gc⟩, ⟨5, 8, gc⟩, ⟨8, 6, gc⟩]⟩, ⟨[⟨8, 9, gc⟩, ⟨9, 10, gc⟩, ⟨10, 8, gc⟩]⟩] ∧
    ¬ ((generateOverlapFaces bigMeshSecond.faces bigMeshSecond.edgemap
        [4, 5, 6, 7, 8, 9, 10] bigPath0 30).floodList.count
          ⟨[⟨6, 5, gc⟩, ⟨5, 8, gc⟩, ⟨8, 6, gc⟩]⟩ ≤ 1) := by
  exact ⟨rfl, by decide⟩

/-! ### C3 amended witness -/

/-- Witness for the amended C3 at the concrete degenerate-face input. -/
theorem c3_amended_witness :
    (phaseB [] [7, 8] [⟨5, 6, gc, 0, 0, IntersectType.node, 0, default⟩] 5 0
        ⟨[⟨0, 0, gc⟩, ⟨1, 1, gc⟩]⟩ 0 10 0 6 0 [⟨5, 6, gc⟩] []).count ≤ 3 ∧
    phaseB [] [7, 8] [⟨5, 6, gc, 0, 0, IntersectType.node, 0, default⟩] 5 0
        ⟨[⟨0, 0, gc⟩, ⟨1, 1, gc⟩]⟩ 0 3 0 6 3 [⟨5, 6, gc⟩] [] = .fail [] 3 :=
  ⟨(c3_amended_guard [] [7, 8] [⟨5, 6, gc, 0, 0, IntersectType.node, 0, default⟩] 5 0
      ⟨[⟨0, 0, gc⟩, ⟨1, 1, gc⟩]⟩ 0 10 0 6 0 [⟨5, 6, gc⟩] []).1 (by decide),
   (c3_amended_guard [] [7, 8] [⟨5, 6, gc, 0, 0, IntersectType.node, 0, default⟩] 5 0
      ⟨[⟨0, 0, gc⟩, ⟨1, 1, gc⟩]⟩ 0 2 0 6 3 [⟨5, 6, gc⟩] []).2 (by decide)⟩

/-! ### C5 amended: faces are grouped per first face, assembled then
flood-filled -/

/-- Per-face decomposition of the face loop: the pair of assembled and
flood-filled face lists produced for each first face, in input order. -/
inductive PiecesOut (ν : Type) where
  | ok (pieces : List (List Face × List Face)) (onodes : List ν)
  | err (msg : String)
  | fuelOut

/-- The same recursion as `runFaces`, collecting each first face's
assembled and flood-filled faces as a pair instead of appending them. -/
def runFacesPieces {ν : Type} [Inhabited ν] (kF : Kernel ν) (mF mS : Mesh ν)
    (nodeMap : List Nat) (fuel : Nat) :
    List Nat → List ν → PiecesOut ν
  | [], onodes => .ok [] onodes
  | f :: rest, onodes =>
    match generatePath kF mF mS nodeMap f onodes fuel with
    | .err m => .err m
    | .fuelOut => .fuelOut
    | .ok path onodes2 =>
      match generateOverlapFaces mS.faces mS.edgemap nodeMap path fuel with
      | .err m => .err m
      | .fuelOut => .fuelOut
      | .fail _ => .err "OverlapMesh generation failed"
      | .ok asmF floodF =>
        match runFacesPieces kF mF mS nodeMap fuel rest onodes2 with
        | .ok ps on3 => .ok ((asmF, floodF) :: ps) on3
        | .err m => .err m
        | .fuelOut => .fuelOut

theorem runFaces_eq_pieces {ν : Type} [Inhabited ν] (kF : Kernel ν) (mF mS : Mesh ν)
    (nodeMap : List Nat) (fuel : Nat) :
    ∀ (fs : List Nat) (onodes : List ν) (faces : List Face)
      (ps : List (List Face × List Face)) (on3 : List ν),
      runFacesPieces kF mF mS nodeMap fuel fs onodes = .ok ps on3 →
      runFaces kF mF mS nodeMap fuel fs onodes faces =
        .ok ⟨on3, faces ++ (ps.map (fun pr => pr.1 ++ pr.2)).join, []⟩ := by
  intro fs
  induction fs with
  | nil =>
    intro onodes faces ps on3 h
    simp only [runFacesPieces] at h
    cases h
    simp [runFaces]
  | cons f rest ih =>
    intro onodes faces ps on3 h
    simp only [runFacesPieces] at h
    simp only [runFaces]
    cases hgp : generatePath kF mF mS nodeMap f onodes fuel with
    | err m => rw [hgp] at h; exact PiecesOut.noConfusion h
    | fuelOut => rw [hgp] at h; exact PiecesOut.noConfusion h
    | ok path onodes2 =>
      simp only [hgp] at h ⊢
      cases hgo : generateOverlapFaces mS.faces mS.edgemap nodeMap path fuel with
      | err m => rw [hgo] at h; exact PiecesOut.noConfusion h
      | fuelOut => rw [hgo] at h; exact PiecesOut.noConfusion h
      | fail fs2 => rw [hgo] at h; exact PiecesOut.noConfusion h
      | ok asmF floodF =>
        simp only [hgo] at h ⊢
        cases hrec : runFacesPieces kF mF mS nodeMap fuel rest onodes2 with
        | err m => rw [hrec] at h; exact PiecesOut.noConfusion h
        | fuelOut => rw [hrec] at h; exact PiecesOut.noConfusion h
        | ok ps2 on4 =>
          rw [hrec] at h
          injection h with h1 h2
          subst h1
          subst h2
          have := ih onodes2 (faces ++ asmF ++ floodF) ps2 _ hrec
          rw [this]
          simp [List.append_assoc]

/-- C5 amended: the faces of the overlap mesh appear grouped by first
face in input order, each group being that face's assembled faces in
assembler order followed immediately by its flood-filled pure-interior
faces (not all flood-filled faces at the end of the run). -/
theorem c5_amended_per_face_order {ν : Type} [Inhabited ν] (kFuzzy kExact : Kernel ν)
    (flag : Bool) (mF mS : Mesh ν) (fuel : Nat)
    (ps : List (List Face × List Face)) (on3 : List ν)
    (h : runFacesPieces kFuzzy mF mS
        (overlapNodeSetup mF mS (buildCoincidentNodeVector kFuzzy mF mS)).2 fuel
        (List.range mF.faces.length)
        (overlapNodeSetup mF mS (buildCoincidentNodeVector kFuzzy mF mS)).1 = .ok ps on3) :
    generateOverlapMesh kFuzzy kExact flag mF mS fuel =
      .ok ⟨on3, (ps.map (fun pr => pr.1 ++ pr.2)).join, []⟩ := by
  have := runFaces_eq_pieces kFuzzy mF mS
    (overlapNodeSetup mF mS (buildCoincidentNodeVector kFuzzy mF mS)).2 fuel
    (List.range mF.faces.length)
    (overlapNodeSetup mF mS (buildCoincidentNodeVector kFuzzy mF mS)).1 [] ps on3 h
  simpa [generateOverlapMesh] using this

/-- The two overlap faces assembled for scenario first face 0. -/
def bigAsm0 : List Face :=
  [⟨[⟨0, 11, gc⟩, ⟨11, 5, gc⟩, ⟨5, 6, gc⟩, ⟨6, 12, gc⟩, ⟨12, 0, gc⟩]⟩,
   ⟨[⟨11, 1, gc⟩, ⟨1, 12, gc⟩, ⟨12, 6, gc⟩, ⟨6, 7, gc⟩, ⟨7, 8, gc⟩, ⟨8, 5, gc⟩, ⟨5, 11, gc⟩]⟩]

/-- The flood-filled faces for scenario first face 0 (second face 2
appears twice). -/
def bigFlood0 : List Face :=
  [⟨[⟨6, 5, gc⟩, ⟨5, 8, gc⟩, ⟨8, 6, gc⟩]⟩, ⟨[⟨7, 8, gc⟩, ⟨8, 9, gc⟩, ⟨9, 7, gc⟩]⟩,
   ⟨[⟨6, 5, gc⟩, ⟨5, 8, gc⟩, ⟨8, 6, gc⟩]⟩, ⟨[⟨8, 9, gc⟩, ⟨9, 10, gc⟩, ⟨10, 8, gc⟩]⟩]

/-- The single overlap face assembled for scenario first face 1. -/
def bigAsm1 : List Face := [⟨[⟨2, 3, gc⟩, ⟨3, 2, gc⟩]⟩]

/-- The overlap node array at the end of the scenario run. -/
def bigOverlapNodes : List Nat :=
  [100, 101, 102, 103, 200, 201, 202, 203, 204, 205, 206, 300, 301]

/-- Witness for the amended C5 at the scenario input. -/
theorem c5_amended_witness :
    generateOverlapMesh bigKernel bigKernel false bigMeshFirst bigMeshSecond 30 =
      .ok ⟨bigOverlapNodes, bigAsm0 ++ bigFlood0 ++ bigAsm1, []⟩ :=
  c5_amended_per_face_order bigKernel bigKernel false bigMeshFirst bigMeshSecond 30
    [(bigAsm0, bigFlood0), (bigAsm1, [])] bigOverlapNodes rfl

/-! ### C6 amended: second faces touched by the traced path are never
flood-filled -/

theorem mem_insertSorted (x y : Nat) :
    ∀ (l : List Nat), x ∈ insertSorted y l ↔ x = y ∨ x ∈ l := by
  intro l
  induction l with
  | nil => simp [insertSorted]
  | cons z zs ih =>
    simp only [insertSorted]
    split
    · simp [List.mem_cons]
    · split
      · rename_i hlt heq
        subst heq
        simp only [List.mem_cons]
        constructor
        · intro h2; exact Or.inr h2
        · rintro (h2 | h2)
          · exact Or.inl h2
          · exact h2
      · simp only [List.mem_cons, ih]
        tauto

theorem contains_insertSorted_of (x t : Nat) (l : List Nat)
    (h : l.contains t = true) : (insertSorted x l).contains t = true :=
  List.elem_iff.mpr ((mem_insertSorted t x l).mpr (Or.inr (List.elem_iff.mp h)))

theorem floodNeighbors_mem (edgemap : List (Edge × Nat × Nat)) (cur : Nat)
    (added : List Nat) :
    ∀ (es : List Edge) (toAdd : List Nat) (fm : Bool) (toAdd2 : List Nat) (fm2 : Bool),
      floodNeighbors edgemap cur added es toAdd fm = .ok (toAdd2, fm2) →
      ∀ x ∈ toAdd2, x ∈ toAdd ∨ added.contains x = false := by
  intro es
  induction es with
  | nil =>
    intro toAdd fm toAdd2 fm2 h x hx
    simp only [floodNeighbors] at h
    cases h
    exact Or.inl hx
  | cons e rest ih =>
    intro toAdd fm toAdd2 fm2 h x hx
    simp only [floodNeighbors] at h
    split at h
    · exact ih toAdd fm toAdd2 fm2 h x hx
    · cases hfind : edgemapFind edgemap e with
      | none => rw [hfind] at h; exact Except.noConfusion h
      | some fp =>
        simp only [hfind] at h
        cases hsel : (if fp.1 = cur then some fp.2 else if fp.2 = cur then some fp.1
            else Option.none) with
        | none => rw [hsel] at h; exact Except.noConfusion h
        | some other =>
          simp only [hsel] at h
          split at h
          · exact ih toAdd fm toAdd2 fm2 h x hx
          · rename_i hnotadded
            rcases ih (insertSorted other toAdd) true toAdd2 fm2 h x hx with h2 | h2
            · rcases (mem_insertSorted x other toAdd).mp h2 with h3 | h3
              · subst h3
                exact Or.inr (by simpa using hnotadded)
              · exact Or.inl h3
            · exact Or.inr h2

theorem floodLoop_untraced (edgemap : List (Edge × Nat × Nat)) (nodeMap : List Nat)
    (sfaces : List Face) (tags : List Nat) :
    ∀ (fuel : Nat) (pos : Option Nat) (toAdd added : List Nat) (acc out : List Face),
      (∀ x ∈ toAdd, x ∉ tags) →
      (∀ x, pos = some x → x ∉ tags) →
      (∀ t ∈ tags, added.contains t = true) →
      (∀ f ∈ acc, ∃ p, p ∉ tags ∧ f = mapFace nodeMap (sfaces.getD p default)) →
      floodLoop edgemap nodeMap sfaces fuel pos toAdd added acc = .ok out →
      ∀ f ∈ out, ∃ p, p ∉ tags ∧ f = mapFace nodeMap (sfaces.getD p default) := by
  intro fuel
  induction fuel with
  | zero =>
    intro pos toAdd added acc out _ _ _ _ h
    exact FloodOut.noConfusion h
  | succ n ih =>
    intro pos toAdd added acc out htoAdd hpos hadded hacc h
    cases pos with
    | none =>
      simp only [floodLoop] at h
      injection h with h2
      subst h2
      exact hacc
    | some p =>
      simp only [floodLoop] at h
      cases hn : floodNeighbors edgemap p (insertSorted p added)
          (sfaces.getD p default).edges toAdd false with
      | error m => rw [hn] at h; exact FloodOut.noConfusion h
      | ok pr =>
        obtain ⟨toAdd2, fm⟩ := pr
        simp only [hn] at h
        have hp : p ∉ tags := hpos p rfl
        have hadded2 : ∀ t ∈ tags, (insertSorted p added).contains t = true :=
          fun t ht => contains_insertSorted_of p t added (hadded t ht)
        have htoAdd2 : ∀ x ∈ toAdd2, x ∉ tags := by
          intro x hx
          rcases floodNeighbors_mem edgemap p (insertSorted p added)
              (sfaces.getD p default).edges toAdd false toAdd2 fm hn x hx with h2 | h2
          · exact htoAdd x h2
          · intro hxt
            rw [hadded2 x hxt] at h2
            exact Bool.noConfusion h2
        have hacc2 : ∀ f ∈ acc ++ [mapFace nodeMap (sfaces.getD p default)],
            ∃ p2, p2 ∉ tags ∧ f = mapFace nodeMap (sfaces.getD p2 default) := by
          intro f hf
          rcases List.mem_append.mp hf with h2 | h2
          · exact hacc f h2
          · rcases List.mem_singleton.mp h2 with rfl
            exact ⟨p, hp, rfl⟩
        split at h
        · refine ih _ _ _ _ _ ?_ ?_ hadded2 hacc2 h
          · intro x hx
            exact htoAdd2 x (List.mem_filter.mp hx).1
          · intro x hx
            have hxmem : x ∈ toAdd2.filter (fun y => y != p) :=
              List.mem_of_mem_head? (by simp [hx])
            exact htoAdd2 x (List.mem_filter.mp hxmem).1
        · refine ih _ _ _ _ _ htoAdd2 ?_ hadded2 hacc2 h
          intro x hx
          exact htoAdd2 x (List.mem_of_find?_eq_some hx)

theorem mem_foldl_insertSorted (x : Nat) :
    ∀ (l : List PathSegment) (s : List Nat),
      x ∈ l.foldl (fun s2 seg => insertSorted seg.ixSecondFace s2) s ↔
        x ∈ s ∨ ∃ seg ∈ l, seg.ixSecondFace = x := by
  intro l
  induction l with
  | nil => simp
  | cons seg rest ih =>
    intro s
    simp only [List.foldl_cons]
    rw [ih, mem_insertSorted]
    simp only [List.mem_cons]
    constructor
    · rintro ((h | h) | h)
      · exact Or.inr ⟨seg, Or.inl rfl, h.symm⟩
      · exact Or.inl h
      · obtain ⟨seg2, hseg2, hx⟩ := h
        exact Or.inr ⟨seg2, Or.inr hseg2, hx⟩
    · rintro (h | h)
      · exact Or.inl (Or.inr h)
      · obtain ⟨seg2, hseg2 | hseg2, hx⟩ := h
        · subst hseg2
          exact Or.inl (Or.inl hx.symm)
        · exact Or.inr ⟨seg2, hseg2, hx⟩

/-- C6 amended: a second face whose index tags any segment of the traced
path is never emitted by the flood-fill; every flood-filled face is the
node-mapped copy of a second face not touched by tracing.  (The "at most
once" half of the original claim fails: see the counterexample.) -/
theorem c6_amended_traced_not_flooded (sfaces : List Face)
    (edgemap : List (Edge × Nat × Nat)) (nodeMap : List Nat)
    (path : List PathSegment) (fuel : Nat) (asmF floodF : List Face)
    (h : generateOverlapFaces sfaces edgemap nodeMap path fuel = .ok asmF floodF) :
    ∀ f ∈ floodF, ∃ p, (∀ seg ∈ path, seg.ixSecondFace ≠ p) ∧
      f = mapFace nodeMap (sfaces.getD p default) := by
  simp only [generateOverlapFaces] at h
  cases houter : outerLoop edgemap nodeMap path sfaces fuel 0 []
      (List.replicate path.length false) [] with
  | err m => rw [houter] at h; exact AsmOut.noConfusion h
  | fuelOut => rw [houter] at h; exact AsmOut.noConfusion h
  | fail faces toAdd => rw [houter] at h; exact AsmOut.noConfusion h
  | ok faces used toAdd =>
    simp only [houter] at h
    cases hflood : floodLoop edgemap nodeMap sfaces fuel
        (List.filter (fun x =>
          !(path.foldl (fun s seg => insertSorted seg.ixSecondFace s) []).contains x) toAdd).head?
        (List.filter (fun x =>
          !(path.foldl (fun s seg => insertSorted seg.ixSecondFace s) []).contains x) toAdd)
        (path.foldl (fun s seg => insertSorted seg.ixSecondFace s) []) [] with
    | err m => rw [hflood] at h; exact AsmOut.noConfusion h
    | fuelOut => rw [hflood] at h; exact AsmOut.noConfusion h
    | ok ff =>
      rw [hflood] at h
      injection h with h1 h2
      subst h2
      intro f hf
      have hmain := floodLoop_untraced edgemap nodeMap sfaces
        (path.map (fun seg => seg.ixSecondFace)) fuel _ _ _ [] _ ?_ ?_ ?_ ?_ hflood f hf
      · obtain ⟨p, hp, hfp⟩ := hmain
        refine ⟨p, ?_, hfp⟩
        intro seg hseg heq
        exact hp (List.mem_map.mpr ⟨seg, hseg, heq⟩)
      · intro x hx
        have hx2 := (List.mem_filter.mp hx).2
        intro hxt
        obtain ⟨seg, hseg, hix⟩ := List.mem_map.mp hxt
        have hmem : x ∈ path.foldl (fun s seg => insertSorted seg.ixSecondFace s) [] :=
          (mem_foldl_insertSorted x path []).mpr (Or.inr ⟨seg, hseg, hix⟩)
        have hc : (path.foldl (fun s seg => insertSorted seg.ixSecondFace s) []).contains x = true :=
          List.elem_iff.mpr hmem
        rw [hc] at hx2
        simp at hx2
      · intro x hx
        have hxmem := List.mem_of_mem_head? (Option.mem_def.mpr hx)
        have hx2 := (List.mem_filter.mp hxmem).2
        intro hxt
        obtain ⟨seg, hseg, hix⟩ := List.mem_map.mp hxt
        have hmem : x ∈ path.foldl (fun s seg => insertSorted seg.ixSecondFace s) [] :=
          (mem_foldl_insertSorted x path []).mpr (Or.inr ⟨seg, hseg, hix⟩)
        have hc : (path.foldl (fun s seg => insertSorted seg.ixSecondFace s) []).contains x = true :=
          List.elem_iff.mpr hmem
        rw [hc] at hx2
        simp at hx2
      · intro t ht
        obtain ⟨seg, hseg, hix⟩ := List.mem_map.mp ht
        exact List.elem_iff.mpr
          ((mem_foldl_insertSorted t path []).mpr (Or.inr ⟨seg, hseg, hix⟩))
      · intro f2 hf2
        exact absurd hf2 (List.not_mem_nil f2)

/-- Witness for the amended C6 at the scenario input: the first
flood-filled face of the scenario is the mapped copy of an untouched
second face. -/
theorem c6_amended_witness :
    ∃ p, (∀ seg ∈ bigPath0, seg.ixSecondFace ≠ p) ∧
      (⟨[⟨6, 5, gc⟩, ⟨5, 8, gc⟩, ⟨8, 6, gc⟩]⟩ : Face) =
        mapFace [4, 5, 6, 7, 8, 9, 10] (bigMeshSecond.faces.getD p default) :=
  c6_amended_traced_not_flooded bigMeshSecond.faces bigMeshSecond.edgemap
    [4, 5, 6, 7, 8, 9, 10] bigPath0 30 bigAsm0 bigFlood0 rfl
    ⟨[⟨6, 5, gc⟩, ⟨5, 8, gc⟩, ⟨8, 6, gc⟩]⟩ (by decide)

/-! ### C4: every overlap face is a closed polygon

Every exit of the assembler that pushes a face appends, as its final
edge, an edge ending at the origin overlap node, and the first edge of
every face in progress starts at the origin; flood-filled faces are
node-mapped copies of second faces and inherit their closedness. -/

theorem closed_append (P : List Edge) (x : Edge) (origin : Nat)
    (hx : x.n1 = origin)
    (hhead : ∀ e, (P ++ [x]).head? = some e → e.n0 = origin) :
    Face.closed ⟨P ++ [x]⟩ = true := by
  have hlast : (P ++ [x]).getLast? = some x := List.getLast?_concat P
  cases hh : (P ++ [x]).head? with
  | none =>
    rw [List.head?_eq_none_iff] at hh
    exact absurd hh (by simp)
  | some e0 =>
    show (match (P ++ [x]).head?, (P ++ [x]).getLast? with
      | some e0, some e1 => e1.n1 == e0.n0
      | _, _ => true) = true
    rw [hh, hlast]
    simp [hx, hhead e0 hh]

theorem head_origin_append (P : List Edge) (x : Edge) (origin : Nat)
    (hP : ∀ e, P.head? = some e → e.n0 = origin)
    (hx : P = [] → x.n0 = origin) :
    ∀ e, (P ++ [x]).head? = some e → e.n0 = origin := by
  intro e he
  cases P with
  | nil =>
    simp only [List.nil_append, List.head?_cons] at he
    cases he
    exact hx rfl
  | cons p rest =>
    simp only [List.cons_append, List.head?_cons] at he
    cases he
    exact hP _ rfl

/-- Postcondition of Phase A used for closedness: a closed result is a
closed polygon, a branch to Phase B carries a nonempty face in progress
starting at the origin. -/
def phaseAPost (origin : Nat) : PhaseAOut → Prop
  | .closed P2 _ => Face.closed ⟨P2⟩ = true
  | .toB P2 _ _ => P2 ≠ [] ∧ ∀ e, P2.head? = some e → e.n0 = origin
  | _ => True

theorem phaseA_invariant (path : List PathSegment) (origin : Nat) :
    ∀ (fuel j : Nat) (P : List Edge) (used : List Bool),
      (∀ e, P.head? = some e → e.n0 = origin) →
      (P = [] → ∀ seg, path.get? j = some seg → seg.n0 = origin) →
      phaseAPost origin (phaseA path origin fuel j P used) := by
  intro fuel
  induction fuel with
  | zero => intro j P used hhead hstart; trivial
  | succ n ih =>
    intro j P used hhead hstart
    simp only [phaseA]
    cases hget : path.get? j with
    | none => simp only [hget]; trivial
    | some seg =>
      simp only [hget]
      have hheadx : ∀ e, (P ++ [seg.toEdge]).head? = some e → e.n0 = origin :=
        head_origin_append P seg.toEdge origin hhead
          (fun hP => by
            have := hstart hP seg hget
            simpa [PathSegment.toEdge] using this)
      split
      · trivial
      · split
        · exact ⟨by simp, hheadx⟩
        · split
          · rename_i hused hint horig
            exact closed_append P seg.toEdge origin
              (by simpa [PathSegment.toEdge] using horig) hheadx
          · exact ih (j + 1) (P ++ [seg.toEdge]) (used.set j true) hheadx
              (fun hP => absurd hP (by simp))

/-- Postcondition of Phase B used for closedness. -/
def phaseBPost (origin : Nat) : PhaseBOut → Prop
  | .closed P2 _ _ => Face.closed ⟨P2⟩ = true
  | .toA P2 _ _ _ => P2 ≠ [] ∧ ∀ e, P2.head? = some e → e.n0 = origin
  | _ => True

theorem phaseB_invariant (edgemap : List (Edge × Nat × Nat)) (nodeMap : List Nat)
    (path : List PathSegment) (origin scur : Nat) (faceS : Face) (j : Nat) :
    ∀ (fuel eIdx curNode n : Nat) (P : List Edge) (toAdd : List Nat),
      P ≠ [] →
      (∀ e, P.head? = some e → e.n0 = origin) →
      phaseBPost origin
        (phaseB edgemap nodeMap path origin scur faceS j fuel eIdx curNode n P toAdd) := by
  intro fuel
  induction fuel with
  | zero => intro eIdx curNode n P toAdd hne hhead; trivial
  | succ fuel2 ih =>
    intro eIdx curNode n P toAdd hne hhead
    simp only [phaseB]
    repeat' split
    all_goals
      first
      | trivial
      | exact ih _ _ _ _ _ hne hhead
      | exact ih _ _ _ _ _ (by simp)
          (head_origin_append _ _ _ hhead (fun h2 => absurd h2 hne))
      | exact ⟨by simp, head_origin_append _ _ _ hhead (fun h2 => absurd h2 hne)⟩
      | (rename_i hor
         exact closed_append _ _ _ (by simpa using hor)
           (head_origin_append _ _ _ hhead (fun h2 => absurd h2 hne)))

/-- Postcondition of a trip used for closedness. -/
def tripPost : TripOut → Prop
  | .pushed face _ _ => Face.closed ⟨face⟩ = true
  | _ => True

theorem tripLoop_invariant (edgemap : List (Edge × Nat × Nat)) (nodeMap : List Nat)
    (path : List PathSegment) (origin scur : Nat) (faceS : Face) :
    ∀ (fuel j : Nat) (P : List Edge) (used : List Bool) (toAdd : List Nat),
      (∀ e, P.head? = some e → e.n0 = origin) →
      (P = [] → ∀ seg, path.get? j = some seg → seg.n0 = origin) →
      tripPost (tripLoop edgemap nodeMap path origin scur faceS fuel j P used toAdd) := by
  intro fuel
  induction fuel with
  | zero => intro j P used toAdd hhead hstart; trivial
  | succ n ih =>
    intro j P used toAdd hhead hstart
    simp only [tripLoop]
    have hA := phaseA_invariant path origin (path.length + 1) j P used hhead hstart
    cases hAeq : phaseA path origin (path.length + 1) j P used with
    | err m => simp only [hAeq]; trivial
    | fuelOut => simp only [hAeq]; trivial
    | closed P2 used2 =>
      rw [hAeq] at hA
      simp only [hAeq]
      exact hA
    | toB P2 j2 used2 =>
      rw [hAeq] at hA
      simp only [hAeq]
      obtain ⟨hne2, hhead2⟩ := hA
      have hB := phaseB_invariant edgemap nodeMap path origin scur faceS j2
        (faceS.edges.length + 2) (path.getD j2 default).ixIntersect
        (path.getD j2 default).n1 0 P2 toAdd hne2 hhead2
      cases hBeq : phaseB edgemap nodeMap path origin scur faceS j2
          (faceS.edges.length + 2) (path.getD j2 default).ixIntersect
          (path.getD j2 default).n1 0 P2 toAdd with
      | err m n2 => simp only [hBeq]; trivial
      | fuelOut n2 => simp only [hBeq]; trivial
      | fail toAdd2 n2 => simp only [hBeq]; trivial
      | closed P3 toAdd2 n2 =>
        rw [hBeq] at hB
        simp only [hBeq]
        exact hB
      | toA P3 jN toAdd2 n2 =>
        rw [hBeq] at hB
        simp only [hBeq]
        obtain ⟨hne3, hhead3⟩ := hB
        exact ih jN P3 used2 toAdd2 hhead3 (fun hP => absurd hP hne3)

/-- Postcondition of the outer assembly loop used for closedness. -/
def outerPost : OuterOut → Prop
  | .ok faces _ _ => ∀ f ∈ faces, Face.closed f = true
  | .fail faces _ => ∀ f ∈ faces, Face.closed f = true
  | _ => True

theorem outerLoop_invariant (edgemap : List (Edge × Nat × Nat)) (nodeMap : List Nat)
    (path : List PathSegment) (sfaces : List Face) :
    ∀ (fuel j : Nat) (faces : List Face) (used : List Bool) (toAdd : List Nat),
      (∀ f ∈ faces, Face.closed f = true) →
      outerPost (outerLoop edgemap nodeMap path sfaces fuel j faces used toAdd) := by
  intro fuel
  induction fuel with
  | zero => intro j faces used toAdd hacc; trivial
  | succ n ih =>
    intro j faces used toAdd hacc
    simp only [outerLoop]
    split
    · exact hacc
    · split
      · exact ih (j + 1) faces used toAdd hacc
      · have htrip := tripLoop_invariant edgemap nodeMap path
          (path.getD j default).n0 (path.getD j default).ixSecondFace
          (sfaces.getD (path.getD j default).ixSecondFace default) n j [] used toAdd
          (fun e he => Option.noConfusion he)
          (fun _ seg hseg => by rw [show path.getD j default = seg from by
            show (path.get? j).getD default = seg
            rw [hseg]
            rfl])
        cases htripEq : tripLoop edgemap nodeMap path (path.getD j default).n0
            (path.getD j default).ixSecondFace
            (sfaces.getD (path.getD j default).ixSecondFace default) n j [] used toAdd with
        | err m => simp only [htripEq]; trivial
        | fuelOut => simp only [htripEq]; trivial
        | fail used2 toAdd2 => simp only [htripEq]; exact hacc
        | pushed P used2 toAdd2 =>
          simp only [htripEq]
          rw [htripEq] at htrip
          have hacc2 : ∀ f ∈ faces ++ [⟨P⟩], Face.closed f = true := by
            intro f hf
            rcases List.mem_append.mp hf with h2 | h2
            · exact hacc f h2
            · rcases List.mem_singleton.mp h2 with rfl
              exact htrip
          split
          · exact hacc2
          · exact ih 1 (faces ++ [⟨P⟩]) used2 toAdd2 hacc2

theorem mapFace_closed (nodeMap : List Nat) (f : Face)
    (h : Face.closed f = true) : Face.closed (mapFace nodeMap f) = true := by
  unfold Face.closed at h ⊢
  unfold mapFace
  simp only [List.head?_map, List.getLast?_map]
  cases hh : f.edges.head? with
  | none => rfl
  | some e0 =>
    cases hl : f.edges.getLast? with
    | none => rfl
    | some e1 =>
      rw [hh, hl] at h
      simp only [Option.map_some']
      have : e1.n1 = e0.n0 := by simpa using h
      simp [this]

theorem getD_face_closed (sfaces : List Face)
    (hS : ∀ f ∈ sfaces, Face.closed f = true) (p : Nat) :
    Face.closed (sfaces.getD p default) = true := by
  by_cases hp : p < sfaces.length
  · have : sfaces.getD p default = sfaces.get ⟨p, hp⟩ := by
      show (sfaces.get? p).getD default = sfaces.get ⟨p, hp⟩
      rw [List.get?_eq_get hp]
      rfl
    rw [this]
    exact hS _ (sfaces.get_mem _ _)
  · rw [List.getD_eq_default sfaces default (Nat.le_of_not_lt hp)]
    rfl

theorem floodLoop_closed (edgemap : List (Edge × Nat × Nat)) (nodeMap : List Nat)
    (sfaces : List Face) (hS : ∀ f ∈ sfaces, Face.closed f = true) :
    ∀ (fuel : Nat) (pos : Option Nat) (toAdd added : List Nat) (acc out : List Face),
      (∀ f ∈ acc, Face.closed f = true) →
      floodLoop edgemap nodeMap sfaces fuel pos toAdd added acc = .ok out →
      ∀ f ∈ out, Face.closed f = true := by
  intro fuel
  induction fuel with
  | zero => intro pos toAdd added acc out _ h; exact FloodOut.noConfusion h
  | succ n ih =>
    intro pos toAdd added acc out hacc h
    cases pos with
    | none =>
      simp only [floodLoop] at h
      injection h with h2
      subst h2
      exact hacc
    | some p =>
      simp only [floodLoop] at h
      cases hn : floodNeighbors edgemap p (insertSorted p added)
          (sfaces.getD p default).edges toAdd false with
      | error m => rw [hn] at h; exact FloodOut.noConfusion h
      | ok pr =>
        obtain ⟨toAdd2, fm⟩ := pr
        simp only [hn] at h
        have hacc2 : ∀ f ∈ acc ++ [mapFace nodeMap (sfaces.getD p default)],
            Face.closed f = true := by
          intro f hf
          rcases List.mem_append.mp hf with h2 | h2
          · exact hacc f h2
          · rcases List.mem_singleton.mp h2 with rfl
            exact mapFace_closed nodeMap _ (getD_face_closed sfaces hS p)
        split at h
        · exact ih _ _ _ _ _ hacc2 h
        · exact ih _ _ _ _ _ hacc2 h

theorem generateOverlapFaces_closed (sfaces : List Face)
    (edgemap : List (Edge × Nat × Nat)) (nodeMap : List Nat)
    (path : List PathSegment) (fuel : Nat) (asmF floodF : List Face)
    (hS : ∀ f ∈ sfaces, Face.closed f = true)
    (h : generateOverlapFaces sfaces edgemap nodeMap path fuel = .ok asmF floodF) :
    (∀ f ∈ asmF, Face.closed f = true) ∧ (∀ f ∈ floodF, Face.closed f = true) := by
  simp only [generateOverlapFaces] at h
  have houterInv := outerLoop_invariant edgemap nodeMap path sfaces fuel 0 []
    (List.replicate path.length false) [] (fun f hf => absurd hf (List.not_mem_nil f))
  cases houter : outerLoop edgemap nodeMap path sfaces fuel 0 []
      (List.replicate path.length false) [] with
  | err m => rw [houter] at h; exact AsmOut.noConfusion h
  | fuelOut => rw [houter] at h; exact AsmOut.noConfusion h
  | fail faces toAdd => rw [houter] at h; exact AsmOut.noConfusion h
  | ok faces used toAdd =>
    rw [houter] at houterInv
    simp only [houter] at h
    cases hflood : floodLoop edgemap nodeMap sfaces fuel
        (List.filter (fun x =>
          !(path.foldl (fun s seg => insertSorted seg.ixSecondFace s) []).contains x) toAdd).head?
        (List.filter (fun x =>
          !(path.foldl (fun s seg => insertSorted seg.ixSecondFace s) []).contains x) toAdd)
        (path.foldl (fun s seg => insertSorted seg.ixSecondFace s) []) [] with
    | err m => rw [hflood] at h; exact AsmOut.noConfusion h
    | fuelOut => rw [hflood] at h; exact AsmOut.noConfusion h
    | ok ff =>
      rw [hflood] at h
      injection h with h1 h2
      subst h1
      subst h2
      exact ⟨houterInv, floodLoop_closed edgemap nodeMap sfaces hS fuel _ _ _ [] _
        (fun f hf => absurd hf (List.not_mem_nil f)) hflood⟩

theorem runFaces_closed {ν : Type} [Inhabited ν] (kF : Kernel ν) (mF mS : Mesh ν)
    (nodeMap : List Nat) (fuel : Nat)
    (hS : ∀ f ∈ mS.faces, Face.closed f = true) :
    ∀ (fs : List Nat) (onodes : List ν) (faces : List Face),
      (∀ f ∈ faces, Face.closed f = true) →
      ∀ m, runFaces kF mF mS nodeMap fuel fs onodes faces = .ok m →
      ∀ f ∈ m.faces, Face.closed f = true := by
  intro fs
  induction fs with
  | nil =>
    intro onodes faces hacc m h
    simp only [runFaces] at h
    injection h with h2
    subst h2
    exact hacc
  | cons f0 rest ih =>
    intro onodes faces hacc m h
    simp only [runFaces] at h
    cases hgp : generatePath kF mF mS nodeMap f0 onodes fuel with
    | err m2 => rw [hgp] at h; exact RunOut.noConfusion h
    | fuelOut => rw [hgp] at h; exact RunOut.noConfusion h
    | ok path onodes2 =>
      simp only [hgp] at h
      cases hgo : generateOverlapFaces mS.faces mS.edgemap nodeMap path fuel with
      | err m2 => rw [hgo] at h; exact RunOut.noConfusion h
      | fuelOut => rw [hgo] at h; exact RunOut.noConfusion h
      | fail fs2 => rw [hgo] at h; exact RunOut.noConfusion h
      | ok asmF floodF =>
        simp only [hgo] at h
        obtain ⟨hasm, hflood⟩ := generateOverlapFaces_closed mS.faces mS.edgemap nodeMap
          path fuel asmF floodF hS hgo
        refine ih onodes2 (faces ++ asmF ++ floodF) ?_ m h
        intro f hf
        rcases List.mem_append.mp hf with h2 | h2
        · rcases List.mem_append.mp h2 with h3 | h3
          · exact hacc f h3
          · exact hasm f h3
        · exact hflood f h2

/-- C4: every overlap face appended to the overlap mesh, whether
assembled from path segments and interior arcs or emitted verbatim by
the flood-fill of pure-interior second faces, is a closed polygon (its
last edge ends at its first edge's start node), provided every face of
the second mesh is itself closed. -/
theorem c4_overlap_faces_closed {ν : Type} [Inhabited ν] (kFuzzy kExact : Kernel ν)
    (flag : Bool) (mF mS : Mesh ν) (fuel : Nat) (m : Mesh ν)
    (hS : ∀ f ∈ mS.faces, Face.closed f = true)
    (h : generateOverlapMesh kFuzzy kExact flag mF mS fuel = .ok m) :
    ∀ f ∈ m.faces, Face.closed f = true :=
  runFaces_closed kFuzzy mF mS
    (overlapNodeSetup mF mS (buildCoincidentNodeVector kFuzzy mF mS)).2 fuel hS
    (List.range mF.faces.length)
    (overlapNodeSetup mF mS (buildCoincidentNodeVector kFuzzy mF mS)).1 []
    (fun f hf => absurd hf (List.not_mem_nil f)) m h

set_option maxHeartbeats 1600000 in
/-- Witness for C4 at the scenario input: the first assembled overlap
face of the scenario is closed. -/
theorem c4_witness :
    Face.closed ⟨[⟨0, 11, gc⟩, ⟨11, 5, gc⟩, ⟨5, 6, gc⟩, ⟨6, 12, gc⟩, ⟨12, 0, gc⟩]⟩ = true :=
  c4_overlap_faces_closed bigKernel bigKernel false bigMeshFirst bigMeshSecond 30
    ⟨bigOverlapNodes, bigAsm0 ++ bigFlood0 ++ bigAsm1, []⟩ (by decide) (by decide)
    ⟨[⟨0, 11, gc⟩, ⟨11, 5, gc⟩, ⟨5, 6, gc⟩, ⟨6, 12, gc⟩, ⟨12, 0, gc⟩]⟩ (by decide)

end OverlapSpec
